import Mathlib

/-!
Verification development for `tools/deploy.py` of the raiden contract
deployment script.

Python dictionaries are modelled as insertion-ordered association lists with
first-occurrence lookup.  A Python callee that mutates a dict it received by
reference is modelled by the callee returning the final state of that dict, so
the caller's view after the call is the returned dict.  External collaborators
(`JSONRPCClient`, `get_contract_path`, `compile_files_cwd`) are opaque
parameters: theorems quantify over every behaviour they may have.
-/

set_option maxRecDepth 10000

/-- Model of a Python `dict` mapping strings to strings: an insertion-ordered
association list. -/
abbrev PyDict := List (String × String)

/-- Model of `d[k] = v` on a Python dict: replace the value at the first
occurrence of `k`, keeping its position, or append a fresh entry at the end. -/
def dictSet : PyDict → String → String → PyDict
  | [], k, v => [(k, v)]
  | (k1, v1) :: rest, k, v =>
    if k1 = k then (k, v) :: rest else (k1, v1) :: dictSet rest k v

/-- Model of `d[k]` lookup on a Python dict (first occurrence). -/
def dictGet : PyDict → String → Option String
  | [], _ => none
  | (k1, v1) :: rest, k => if k1 = k then some v1 else dictGet rest k

/-- Model of `d.update(other)`: set each entry of `other` into `d` in order. -/
def dictUpdate (d other : PyDict) : PyDict :=
  other.foldl (fun acc p => dictSet acc p.1 p.2) d

/-- Model of Python `s.partition(":")` at the character level: the part before
the first colon and the part after it (the second component is empty when no
colon occurs, as in Python). -/
def partitionColon : List Char → List Char × List Char
  | [] => ([], [])
  | c :: rest =>
    if c = ':' then ([], rest)
    else
      let p := partitionColon rest
      (c :: p.1, p.2)

/-- The list `RAIDEN_CONTRACT_FILES` of `tools/deploy.py` (lines 19-24). -/
def RAIDEN_CONTRACT_FILES : List String :=
  ["NettingChannelLibrary.sol", "ChannelManagerLibrary.sol",
   "Registry.sol", "EndpointRegistry.sol"]

/-- The list `CONTRACTS_TO_DEPLOY` of `tools/deploy.py` (lines 28-31). -/
def CONTRACTS_TO_DEPLOY : List String :=
  ["Registry.sol:Registry", "EndpointRegistry.sol:EndpointRegistry"]

/-- Proxy object returned by `JSONRPCClient.deploy_solidity_contract`; only its
`contract_address` attribute is used by the script. -/
structure ContractProxy where
  contract_address : String
deriving DecidableEq, Repr

/-- Model of the RPC client.  `deploy_solidity_contract` receives the client
state, the contract name, the compiled-contracts table, the `libraries` dict,
the constructor parameters and the `contract_path` keyword argument; it returns
the new client state, the proxy of the deployed contract, and the final state
of the caller-supplied `libraries` dict (after the Patch Step the method
mutates that dict in place, so its final state is visible to the caller). -/
structure Client (σ κ : Type) where
  deploy_solidity_contract :
    σ → String → κ → PyDict → String → String → σ × ContractProxy × PyDict

/-- Model of `deploy_file` (`tools/deploy.py` lines 84-98): create a fresh
empty `libraries` dict, split the contract reference at the first colon into
file name and contract name, call the client, record the deployed address under
the full reference, and return the dict. -/
def deploy_file {σ κ : Type} (client : Client σ κ) (contract : String)
    (compiled_contracts : κ) (s : σ) : σ × PyDict :=
  let libraries : PyDict := []
  let parts := partitionColon contract.data
  let filename : String := ⟨parts.1⟩
  let name : String := ⟨parts.2⟩
  let call := client.deploy_solidity_contract s name compiled_contracts libraries "" filename
  (call.1, dictSet call.2.2 contract call.2.1.contract_address)

/-- External collaborators used by `deploy_all`: `get_contract_path`,
`compile_files_cwd` and the RPC client. -/
structure DeployEnv (σ κ : Type) where
  get_contract_path : String → String
  compile_files_cwd : List String → κ
  client : Client σ κ

/-- Model of `deploy_all` (`tools/deploy.py` lines 101-110): expand the
contract file paths, compile once, then fold over `CONTRACTS_TO_DEPLOY`,
merging each `deploy_file` result into the accumulator `deployed` (initially
empty) with `dict.update`. -/
def deploy_all {σ κ : Type} (env : DeployEnv σ κ) (s : σ) : σ × PyDict :=
  let contracts_expanded := RAIDEN_CONTRACT_FILES.map env.get_contract_path
  let compiled_contracts := env.compile_files_cwd contracts_expanded
  CONTRACTS_TO_DEPLOY.foldl
    (fun acc contract =>
      let r := deploy_file env.client contract compiled_contracts acc.1
      (r.1, dictUpdate acc.2 r.2))
    (s, ([] : PyDict))

/-- Arguments of one `deploy_solidity_contract` invocation, as recorded by the
instrumented client. -/
structure CallRec (κ : Type) where
  contract_name : String
  all_contracts : κ
  libraries : PyDict
  constructor_parameters : String
  contract_path : String

/-- Instrumentation wrapper: behaves exactly like the underlying behaviour `f`
and additionally appends a record of the arguments of every invocation to the
trace component of the state. -/
def recClient {σ κ : Type}
    (f : σ → String → κ → PyDict → String → String → σ × ContractProxy × PyDict) :
    Client (σ × List (CallRec κ)) κ where
  deploy_solidity_contract := fun st name cc libs cp path =>
    let r := f st.1 name cc libs cp path
    ((r.1, st.2 ++ [⟨name, cc, libs, cp, path⟩]), r.2.1, r.2.2)

/-- C1: for the fixed lists `RAIDEN_CONTRACT_FILES` and `CONTRACTS_TO_DEPLOY`,
`deploy_all` invokes the client's `deploy_solidity_contract` exactly once per
entry of `CONTRACTS_TO_DEPLOY`, in the order the entries appear in that list:
for every client behaviour, the recorded call trace consists of exactly one
call per entry, carrying that entry's contract name and file name, in list
order. -/
theorem deploy_all_calls_once_per_entry_in_order
    (σ κ : Type) (f : σ → String → κ → PyDict → String → String → σ × ContractProxy × PyDict)
    (gcp : String → String) (cfc : List String → κ) (s0 : σ) :
    ((deploy_all ⟨gcp, cfc, recClient f⟩ (s0, [])).1.2).map
        (fun r => (r.contract_name, r.contract_path))
      = [("Registry", "Registry.sol"), ("EndpointRegistry", "EndpointRegistry.sol")]
    ∧ ((deploy_all ⟨gcp, cfc, recClient f⟩ (s0, [])).1.2).length
      = CONTRACTS_TO_DEPLOY.length := by
  constructor <;> rfl

/-- Lookup after setting the same key yields the new value. -/
theorem dictGet_dictSet_self (d : PyDict) (k v : String) :
    dictGet (dictSet d k v) k = some v := by
  induction d with
  | nil => simp [dictSet, dictGet]
  | cons p rest ih =>
    obtain ⟨k1, v1⟩ := p
    by_cases h : k1 = k
    · simp [dictSet, dictGet, h]
    · simp [dictSet, dictGet, h, ih]

/-- Lookup at a different key is unchanged by a set. -/
theorem dictGet_dictSet_ne (d : PyDict) (k v : String) (k' : String) (h : k' ≠ k) :
    dictGet (dictSet d k v) k' = dictGet d k' := by
  induction d with
  | nil => simp [dictSet, dictGet, Ne.symm h]
  | cons p rest ih =>
    obtain ⟨k1, v1⟩ := p
    by_cases h1 : k1 = k
    · subst h1
      simp [dictSet, dictGet, Ne.symm h, h]
    · by_cases h2 : k1 = k'
      · simp [dictSet, dictGet, h1, h2, h]
      · simp [dictSet, dictGet, h1, h2, ih]

/-- A key present in a dict is still present after a set. -/
theorem isSome_dictGet_dictSet (d : PyDict) (k v : String) (k' : String)
    (h : (dictGet d k').isSome = true) :
    (dictGet (dictSet d k v) k').isSome = true := by
  by_cases hk : k' = k
  · subst hk; simp [dictGet_dictSet_self]
  · rwa [dictGet_dictSet_ne d k v k' hk]

/-- A key present in a dict is still present after merging another dict into
it with `dict.update`. -/
theorem isSome_dictGet_dictUpdate_left (other : PyDict) (d : PyDict) (k : String)
    (h : (dictGet d k).isSome = true) :
    (dictGet (dictUpdate d other) k).isSome = true := by
  induction other generalizing d with
  | nil => simpa [dictUpdate] using h
  | cons p rest ih =>
    simp only [dictUpdate, List.foldl_cons] at *
    exact ih (dictSet d p.1 p.2) (isSome_dictGet_dictSet d p.1 p.2 k h)

/-- A key present in the merged-in dict is present after `dict.update`. -/
theorem isSome_dictGet_dictUpdate_right (other : PyDict) (d : PyDict) (k : String)
    (h : (dictGet other k).isSome = true) :
    (dictGet (dictUpdate d other) k).isSome = true := by
  induction other generalizing d with
  | nil => simp [dictGet] at h
  | cons p rest ih =>
    obtain ⟨k1, v1⟩ := p
    simp only [dictUpdate, List.foldl_cons]
    by_cases hk : k1 = k
    · subst hk
      by_cases hr : (dictGet rest k1).isSome = true
      · exact ih (dictSet d k1 v1) hr
      · exact isSome_dictGet_dictUpdate_left rest (dictSet d k1 v1) k1
          (by simp [dictGet_dictSet_self])
    · simp only [dictGet, hk, if_neg hk] at h
      exact ih (dictSet d k1 v1) h

/-- C2 counterexample: a client behaviour that records one library address in
the shared `libraries` dict (which is exactly what the Patch Step enables)
makes `deploy_file` return a two-entry map, refuting "exactly one entry". -/
def depWritingClient : Client Unit Unit where
  deploy_solidity_contract := fun _ _ _ libs _ _ =>
    ((), ⟨"0x1111111111111111111111111111111111111111"⟩,
     dictSet libs "ChannelManagerLibrary" "0x2222222222222222222222222222222222222222")

/-- C2 is false as stated: under the client behaviour `depWritingClient` the
map returned by `deploy_file` for the reference `Registry.sol:Registry` has two
entries, not exactly one. -/
theorem deploy_file_two_entry_counterexample :
    (deploy_file depWritingClient "Registry.sol:Registry" () ()).2
      = [("ChannelManagerLibrary", "0x2222222222222222222222222222222222222222"),
         ("Registry.sol:Registry", "0x1111111111111111111111111111111111111111")]
    ∧ (deploy_file depWritingClient "Registry.sol:Registry" () ()).2.length ≠ 1 := by
  constructor
  · rfl
  · decide

/-- C2 as amended: for every Contract Reference string and every client
behaviour, the map returned by `deploy_file` maps the exact input reference to
the deployed contract's address; at every other key it agrees with what the
client's deployment operation wrote into the initially empty shared dict; and
when the operation writes nothing, the map is exactly the single entry keyed by
the input reference. -/
theorem deploy_file_map_entries
    (σ κ : Type) (client : Client σ κ) (cc : κ) (s : σ) (contract : String) :
    (dictGet (deploy_file client contract cc s).2 contract
        = some (client.deploy_solidity_contract s ⟨(partitionColon contract.data).2⟩ cc [] ""
            ⟨(partitionColon contract.data).1⟩).2.1.contract_address)
    ∧ (∀ k, k ≠ contract →
        dictGet (deploy_file client contract cc s).2 k
          = dictGet (client.deploy_solidity_contract s ⟨(partitionColon contract.data).2⟩ cc [] ""
              ⟨(partitionColon contract.data).1⟩).2.2 k)
    ∧ ((client.deploy_solidity_contract s ⟨(partitionColon contract.data).2⟩ cc [] ""
          ⟨(partitionColon contract.data).1⟩).2.2 = [] →
        (deploy_file client contract cc s).2
          = [(contract,
              (client.deploy_solidity_contract s ⟨(partitionColon contract.data).2⟩ cc [] ""
                ⟨(partitionColon contract.data).1⟩).2.1.contract_address)]) := by
  refine ⟨?_, ?_, ?_⟩
  · exact dictGet_dictSet_self _ _ _
  · intro k hk
    exact dictGet_dictSet_ne _ _ _ _ hk
  · intro h
    simp only [deploy_file, h, dictSet]

/-- Witness for `deploy_file_map_entries`: a client that writes nothing into
the shared dict yields exactly the single-entry map. -/
def silentClient : Client Unit Unit where
  deploy_solidity_contract := fun _ _ _ libs _ _ =>
    ((), ⟨"0xcccccccccccccccccccccccccccccccccccccccc"⟩, libs)

/-- Witness applying `deploy_file_map_entries` at a concrete input and
discharging its hypotheses. -/
theorem deploy_file_map_entries_witness :
    (deploy_file silentClient "Registry.sol:Registry" () ()).2
      = [("Registry.sol:Registry", "0xcccccccccccccccccccccccccccccccccccccccc")]
    ∧ dictGet (deploy_file silentClient "Registry.sol:Registry" () ()).2 "nope" = none := by
  have h := deploy_file_map_entries Unit Unit silentClient () () "Registry.sol:Registry"
  exact ⟨h.2.2 rfl, by rw [h.2.1 "nope" (by decide)]; rfl⟩

/-- C3 as amended: there is no single Library Address Map shared across the
deployment loop.  Each `deploy_file` call creates a fresh, initially empty
`libraries` dict: for every client behaviour, every recorded invocation of
`deploy_solidity_contract` received the empty dict as its `libraries` argument,
so a later deployment call cannot read addresses recorded by earlier calls
through that argument.  The map is shared only between a single `deploy_file`
call and the one client call it makes (whose in-place writes `deploy_file`
returns), and a separate accumulator collects the per-call results. -/
theorem deploy_all_each_call_gets_empty_libraries
    (σ κ : Type) (f : σ → String → κ → PyDict → String → String → σ × ContractProxy × PyDict)
    (gcp : String → String) (cfc : List String → κ) (s0 : σ) :
    ((deploy_all ⟨gcp, cfc, recClient f⟩ (s0, [])).1.2).map CallRec.libraries
      = [[], []] := by
  rfl

/-- Client used for the C3 counterexample: it records every `libraries`
argument it is given in its state and writes a dependency address into the
shared dict (as the patched upstream method does). -/
def libsRecordingClient : Client (List PyDict) Unit where
  deploy_solidity_contract := fun seen _ _ libs _ _ =>
    (seen ++ [libs], ⟨"0x3333333333333333333333333333333333333333"⟩,
     dictSet libs "NettingChannelLibrary" "0x4444444444444444444444444444444444444444")

/-- C3 is false as stated: running the deployment loop with
`libsRecordingClient`, the first deployment records the address of
`Registry.sol:Registry` in the run's result, yet the `libraries` map the second
deployment call receives is empty — it contains neither that address nor the
library address written during the first call, so later deployment calls
cannot read earlier recorded addresses through a shared map. -/
theorem deploy_loop_fresh_map_counterexample :
    (deploy_all ⟨id, fun _ => (), libsRecordingClient⟩ []).1 = [[], []]
    ∧ dictGet ((deploy_all ⟨id, fun _ => (), libsRecordingClient⟩ []).1.getLast!)
        "Registry.sol:Registry" = none
    ∧ (dictGet (deploy_all ⟨id, fun _ => (), libsRecordingClient⟩ []).2
        "Registry.sol:Registry").isSome = true := by
  refine ⟨rfl, rfl, rfl⟩

/-- Assignment target of a Python `ast.Assign` node: either a bare `ast.Name`
(with its identifier) or any other target form (tuple, attribute, subscript,
starred), kept opaque since the transformer only tests `isinstance(..., Name)`. -/
inductive PyTarget where
  | name (id : String)
  | other (descr : String)
deriving DecidableEq, Repr

/-- Statement of the parsed method body.  `assign` models an `ast.Assign` node
with its target list, its `col_offset` and an opaque right-hand side; `block`
models any compound statement (`if`, `for`, `while`, `with`, ...) whose body the
generic `NodeTransformer` visit recurses into; `simple` models every other
statement. -/
inductive PyStmt where
  | assign (targets : List PyTarget) (col_offset : Nat) (value : String)
  | block (descr : String) (body : List PyStmt)
  | simple (descr : String)
deriving Repr

/-- The condition `is_libraries` of `RemoveLibraryDeref.visit_Assign`
(`tools/deploy.py` lines 54-59): a single target, column offset 4, the target
an `ast.Name` whose id is `libraries`.  The right-hand side is not examined. -/
def isLibrariesAssign (targets : List PyTarget) (col_offset : Nat) : Bool :=
  targets.length == 1 && col_offset == 4 &&
    (match targets with
     | [PyTarget.name i] => i == "libraries"
     | _ => false)

/-- The `RemoveLibraryDeref` transformer applied to a statement list: every
`ast.Assign` node satisfying `is_libraries` is removed (`visit_Assign` returns
`None`), every other node is kept, and the generic visit recurses into compound
statement bodies. -/
def removeLibraryDeref : List PyStmt → List PyStmt
  | [] => []
  | PyStmt.assign ts col v :: rest =>
    if isLibrariesAssign ts col then removeLibraryDeref rest
    else PyStmt.assign ts col v :: removeLibraryDeref rest
  | PyStmt.block d body :: rest =>
    PyStmt.block d (removeLibraryDeref body) :: removeLibraryDeref rest
  | PyStmt.simple d :: rest => PyStmt.simple d :: removeLibraryDeref rest

/-- All `ast.Assign` nodes of a statement list, in visit order, with their
targets, column offset and right-hand side. -/
def collectAssigns : List PyStmt → List (List PyTarget × Nat × String)
  | [] => []
  | PyStmt.assign ts col v :: rest => (ts, col, v) :: collectAssigns rest
  | PyStmt.block _ body :: rest => collectAssigns body ++ collectAssigns rest
  | PyStmt.simple _ :: rest => collectAssigns rest

/-- Whether some `ast.Assign` node of the body satisfies `is_libraries`. -/
def containsLibrariesAssign (body : List PyStmt) : Bool :=
  (collectAssigns body).any (fun a => isLibrariesAssign a.1 a.2.1)

/-- Model of `patch_deploy_solidity_contract` (`tools/deploy.py` lines 34-77):
take the parsed source of `JSONRPCClient.deploy_solidity_contract`, run the
`RemoveLibraryDeref` transformer over it, recompile and rebind.  Every step is
total with respect to the presence of the expected assignment pattern: parsing
and recompiling the (already valid) source cannot fail, the transformer simply
returns the tree unchanged when no node matches, and the exec step always
defines `deploy_solidity_contract` in the context dict, so the final lookup
succeeds.  `none` would model a propagated exception; no step produces it. -/
def patch_deploy_solidity_contract (source_body : List PyStmt) : Option (List PyStmt) :=
  some (removeLibraryDeref source_body)

/-- C9: the transformer removes exactly the assignment nodes satisfying the
`is_libraries` condition — a single target that is the bare name `libraries`
at column offset 4, regardless of the right-hand side — everywhere in the
body, and leaves every other assignment node unchanged and in order. -/
theorem remove_library_deref_filters_assigns (body : List PyStmt) :
    collectAssigns (removeLibraryDeref body)
      = (collectAssigns body).filter (fun a => !isLibrariesAssign a.1 a.2.1) := by
  induction body using removeLibraryDeref.induct with
  | case1 => simp [removeLibraryDeref, collectAssigns]
  | case2 ts col v rest hc ih =>
    simp [removeLibraryDeref, collectAssigns, hc, List.filter, ih]
  | case3 ts col v rest hc ih =>
    simp [removeLibraryDeref, collectAssigns, hc, List.filter, ih]
  | case4 d b rest ih1 ih2 =>
    simp [removeLibraryDeref, collectAssigns, List.filter_append, ih1, ih2]
  | case5 d rest ih =>
    simp [removeLibraryDeref, collectAssigns, ih]

/-- When no assignment node matches, the transformer is the identity. -/
theorem removeLibraryDeref_id (body : List PyStmt)
    (h : containsLibrariesAssign body = false) : removeLibraryDeref body = body := by
  induction body using removeLibraryDeref.induct with
  | case1 => simp [removeLibraryDeref]
  | case2 ts col v rest hc ih =>
    exfalso
    simp [containsLibrariesAssign, collectAssigns, hc] at h
  | case3 ts col v rest hc ih =>
    simp only [containsLibrariesAssign, collectAssigns, List.any_cons, Bool.or_eq_false_iff] at h
    simp [removeLibraryDeref, hc, ih h.2]
  | case4 d b rest ih1 ih2 =>
    simp only [containsLibrariesAssign, collectAssigns, List.any_append,
      Bool.or_eq_false_iff] at h
    simp [removeLibraryDeref, ih1 h.1, ih2 h.2]
  | case5 d rest ih =>
    simp only [containsLibrariesAssign, collectAssigns] at h
    simp [removeLibraryDeref, ih h]

/-- Method body containing no assignment matching the expected pattern: the
only name-`libraries` assignment sits at column offset 8, and the only
column-4 assignment has a tuple target. -/
def bodyWithoutPattern : List PyStmt :=
  [PyStmt.assign [PyTarget.other "Tuple of filename and name"] 4 "contract_name.split()",
   PyStmt.block "if libraries is None"
     [PyStmt.assign [PyTarget.name "libraries"] 8 "dict(libraries)"],
   PyStmt.simple "return proxy"]

/-- C4 is false as stated: on a method body that no longer contains the
expected assignment pattern, `patch_deploy_solidity_contract` completes
without error (returning the body unchanged) instead of propagating one. -/
theorem patch_silent_without_pattern_counterexample :
    containsLibrariesAssign bodyWithoutPattern = false
    ∧ patch_deploy_solidity_contract bodyWithoutPattern = some bodyWithoutPattern
    ∧ patch_deploy_solidity_contract bodyWithoutPattern ≠ none := by
  refine ⟨?_, ?_, ?_⟩
  · simp [containsLibrariesAssign, collectAssigns, isLibrariesAssign, bodyWithoutPattern]
  · simp [patch_deploy_solidity_contract, removeLibraryDeref, isLibrariesAssign,
      bodyWithoutPattern]
  · simp [patch_deploy_solidity_contract]

/-- C4 as amended: when the source of `deploy_solidity_contract` no longer
contains the expected assignment pattern, `patch_deploy_solidity_contract`
completes without error, rebinding a behaviourally identical method: the
transformer leaves the tree unchanged and no step raises. -/
theorem patch_completes_without_error (body : List PyStmt)
    (h : containsLibrariesAssign body = false) :
    patch_deploy_solidity_contract body = some body := by
  simp [patch_deploy_solidity_contract, removeLibraryDeref_id body h]

/-- Witness applying `patch_completes_without_error` at a concrete body. -/
theorem patch_completes_without_error_witness :
    patch_deploy_solidity_contract [PyStmt.simple "return proxy"]
      = some [PyStmt.simple "return proxy"] :=
  patch_completes_without_error [PyStmt.simple "return proxy"]
    (by simp [containsLibrariesAssign, collectAssigns])

/-- Default value of the `--gas-price` CLI option (`tools/deploy.py` line 122),
in GWei. -/
def gas_price_default : Int := 4

/-- Model of `gas_price_in_wei = gas_price * 1000000000`
(`tools/deploy.py` line 130). -/
def gas_price_in_wei (gas_price : Int) : Int := gas_price * 1000000000

/-- C6: the gas price passed to the RPC client equals the `--gas-price` option
value (default 4 GWei) multiplied by ten to the ninth; with gas price 4 the
derived wei value is 4,000,000,000. -/
theorem gas_price_in_wei_correct :
    (∀ g : Int, gas_price_in_wei g = g * 10 ^ 9)
    ∧ gas_price_in_wei gas_price_default = 4000000000
    ∧ gas_price_in_wei 4 = 4000000000 := by
  refine ⟨fun g => by norm_num [gas_price_in_wei], rfl, rfl⟩

/-- Characters that may occur in the hex part of an address. -/
def hexAlphabet : List Char := "0123456789abcdefABCDEF".data

/-- Lowercase hex digits. -/
def lowerHex : List Char := "0123456789abcdef".data

/-- Whether a character is a hex digit. -/
def isHexChar (c : Char) : Bool := hexAlphabet.contains c

/-- Syntactically valid 20-byte hex address: `0x` followed by 40 hex digits. -/
def is_valid_address (s : String) : Bool :=
  s.data.length == 42 && s.data.take 2 == ['0', 'x'] && (s.data.drop 2).all isHexChar

/-- Capitalisation rule of the checksum encoding: hex digit `c` is uppercased
exactly when the corresponding hash nibble `n` is at least 8. -/
def checksumCap (c : Char) (n : Nat) : Char := if n < 8 then c else c.toUpper

/-- Modelled from the spec: `eth_utils.to_checksum_address`, imported on
`tools/deploy.py` line 7, is not part of the repository sources.  Per the
spec's glossary a checksum address is "a mixed-case hex encoding of a 20-byte
address that embeds a capitalization-based checksum per a well-known Ethereum
address encoding convention": normalise the hex part to lowercase, hash the
lowercase hex characters with keccak-256, and uppercase each hex digit whose
corresponding hash nibble is at least 8.  The keccak hash is an abstract
parameter returning the 64 nibbles of the digest. -/
def to_checksum_address (keccak : List Char → List Nat) (value : String) : String :=
  let norm := (value.data.drop 2).map Char.toLower
  ⟨'0' :: 'x' :: List.zipWith checksumCap norm (keccak norm)⟩

/-- A character passing the hex test is in the hex alphabet. -/
theorem mem_of_isHexChar (c : Char) (h : isHexChar c = true) : c ∈ hexAlphabet := by
  simpa [isHexChar] using h

/-- Lowercasing a hex digit lands in the lowercase hex digits. -/
theorem toLower_mem_lowerHex : ∀ c ∈ hexAlphabet, Char.toLower c ∈ lowerHex := by
  decide

/-- Lowercase hex digits are fixed by `Char.toLower`. -/
theorem lowerHex_toLower_self : ∀ c ∈ lowerHex, Char.toLower c = c := by
  decide

/-- Uppercasing then lowercasing a lowercase hex digit gives it back. -/
theorem lowerHex_toLower_toUpper : ∀ c ∈ lowerHex, Char.toLower c.toUpper = c := by
  decide

/-- Lowercasing the checksum-capitalised characters recovers the lowercase
input, whatever the hash nibbles are. -/
theorem map_toLower_zipWith_checksumCap (as : List Char) (bs : List Nat)
    (hlen : as.length ≤ bs.length) (hc : ∀ c ∈ as, c ∈ lowerHex) :
    (List.zipWith checksumCap as bs).map Char.toLower = as := by
  induction as generalizing bs with
  | nil => simp
  | cons a t ih =>
    cases bs with
    | nil => simp at hlen
    | cons b bt =>
      have ha : a ∈ lowerHex := hc a (List.mem_cons_self a t)
      have ht : ∀ c ∈ t, c ∈ lowerHex := fun c hcm => hc c (List.mem_cons_of_mem a hcm)
      have hlt : t.length ≤ bt.length := by
        simpa [Nat.succ_le_succ_iff] using hlen
      by_cases hb : b < 8
      · simp [checksumCap, hb, lowerHex_toLower_self a ha, ih bt hlt ht]
      · simp [checksumCap, hb, lowerHex_toLower_toUpper a ha, ih bt hlt ht]

/-- C8: checksum address formatting is idempotent on every syntactically valid
20-byte hex address, for every keccak hash behaviour (keccak-256 digests have
64 nibbles): applying it twice yields the same string as applying it once. -/
theorem to_checksum_address_idempotent (keccak : List Char → List Nat)
    (hk : ∀ cs, (keccak cs).length = 64) (a : String)
    (ha : is_valid_address a = true) :
    to_checksum_address keccak (to_checksum_address keccak a)
      = to_checksum_address keccak a := by
  have ha' := ha
  simp only [is_valid_address, Bool.and_eq_true, beq_iff_eq, List.all_eq_true] at ha'
  obtain ⟨⟨hlen42, _htake⟩, hall⟩ := ha'
  have hnorm : ∀ c ∈ (a.data.drop 2).map Char.toLower, c ∈ lowerHex := by
    intro c hcm
    obtain ⟨c0, hc0, rfl⟩ := List.mem_map.mp hcm
    exact toLower_mem_lowerHex c0 (mem_of_isHexChar c0 (hall c0 hc0))
  have hlen : ((a.data.drop 2).map Char.toLower).length
      ≤ (keccak ((a.data.drop 2).map Char.toLower)).length := by
    rw [hk]
    simp [hlen42]
  have key := map_toLower_zipWith_checksumCap ((a.data.drop 2).map Char.toLower)
    (keccak ((a.data.drop 2).map Char.toLower)) hlen hnorm
  simp only [to_checksum_address]
  congr 1
  show '0' :: 'x' :: List.zipWith checksumCap
      ((List.drop 2 ('0' :: 'x' :: List.zipWith checksumCap ((a.data.drop 2).map Char.toLower)
        (keccak ((a.data.drop 2).map Char.toLower)))).map Char.toLower)
      (keccak ((List.drop 2 ('0' :: 'x' :: List.zipWith checksumCap
        ((a.data.drop 2).map Char.toLower)
        (keccak ((a.data.drop 2).map Char.toLower)))).map Char.toLower))
    = '0' :: 'x' :: List.zipWith checksumCap ((a.data.drop 2).map Char.toLower)
        (keccak ((a.data.drop 2).map Char.toLower))
  rw [show (List.drop 2 ('0' :: 'x' :: List.zipWith checksumCap
      ((a.data.drop 2).map Char.toLower) (keccak ((a.data.drop 2).map Char.toLower))))
      = List.zipWith checksumCap ((a.data.drop 2).map Char.toLower)
        (keccak ((a.data.drop 2).map Char.toLower)) from rfl, key]

/-- Keccak stand-in for the witness: a constant digest of 64 nibbles. -/
def demoKeccak : List Char → List Nat := fun _ => List.replicate 64 9

/-- Concrete valid address for the witness. -/
def demoAddress : String := "0xde0b295669a9fd93d5f28d9ec85e40f4cb697bae"

/-- Witness applying `to_checksum_address_idempotent` at a concrete keccak
behaviour and address, discharging both hypotheses. -/
theorem to_checksum_address_idempotent_witness :
    is_valid_address demoAddress = true
    ∧ to_checksum_address demoKeccak (to_checksum_address demoKeccak demoAddress)
      = to_checksum_address demoKeccak demoAddress :=
  ⟨by decide,
   to_checksum_address_idempotent demoKeccak
     (fun cs => by simp [demoKeccak]) demoAddress (by decide)⟩

/-- Lowercase hex digit character for a value below 16. -/
def hexDigitCore : Nat → Char
  | 0 => '0' | 1 => '1' | 2 => '2' | 3 => '3' | 4 => '4' | 5 => '5' | 6 => '6' | 7 => '7'
  | 8 => '8' | 9 => '9' | 10 => 'a' | 11 => 'b' | 12 => 'c' | 13 => 'd' | 14 => 'e'
  | _ => 'f'

/-- Lowest hex digit of a number, as used in `\uXXXX` escapes. -/
def hexDigit (n : Nat) : Char := hexDigitCore (n % 16)

/-- A `\uXXXX` escape for a 16-bit value. -/
def uEsc (k : Nat) : List Char :=
  ['\\', 'u', hexDigit (k / 4096), hexDigit (k / 256), hexDigit (k / 16), hexDigit k]

/-- Per-character JSON string escaping as Python `json.dumps` performs it with
the default `ensure_ascii=True`: the two-character escapes for quote,
backslash and the control characters with short names, `\uXXXX` for the other
control characters and for non-ASCII characters (a surrogate pair above the
basic multilingual plane), and the character itself otherwise. -/
def escChar (c : Char) : List Char :=
  if c = '"' then ['\\', '"']
  else if c = '\\' then ['\\', '\\']
  else if c = '\n' then ['\\', 'n']
  else if c = '\r' then ['\\', 'r']
  else if c = '\t' then ['\\', 't']
  else if c = '\x08' then ['\\', 'b']
  else if c = '\x0c' then ['\\', 'f']
  else if c.toNat < 32 then uEsc c.toNat
  else if c.toNat < 128 then [c]
  else if c.toNat < 65536 then uEsc c.toNat
  else uEsc (55296 + (c.toNat - 65536) / 1024) ++ uEsc (56320 + (c.toNat - 65536) % 1024)

/-- JSON escaping of a whole string, character by character. -/
def escString (cs : List Char) : List Char := cs.foldr (fun c acc => escChar c ++ acc) []

/-- A JSON string literal: escaped content between double quotes. -/
def jsonQuote (cs : List Char) : List Char := '"' :: escString cs ++ ['"']

/-- One `"key": "value"` member of a JSON object. -/
def renderEntry (p : String × String) : List Char :=
  jsonQuote p.1.data ++ ':' :: ' ' :: jsonQuote p.2.data

/-- Pieces joined with a separator between consecutive pieces. -/
def joinSep (sep : List Char) : List (List Char) → List Char
  | [] => []
  | [x] => x
  | x :: y :: t => x ++ sep ++ joinSep sep (y :: t)

/-- Model of `json.dumps` on a flat string-to-string dict: with `indent=None`
the compact form with `", "` item and `": "` key separators; with `indent=n`
the multi-line form, each member on its own line indented by `n` spaces, item
separator a comma at end of line, closing brace on its own line (an empty dict
renders as `{}` in both cases). -/
def jsonDumps (d : PyDict) (indent : Option Nat) : String :=
  match indent with
  | none => ⟨'{' :: (joinSep [',', ' '] (d.map renderEntry) ++ ['}'])⟩
  | some n =>
    if d = [] then ⟨['{', '}']⟩
    else
      ⟨'{' :: '\n' :: (List.replicate n ' ' ++
        (joinSep (',' :: '\n' :: List.replicate n ' ') (d.map renderEntry) ++
          '\n' :: ['}']))⟩

/-- Model of `print(json.dumps(deployed, indent=2 if pretty else None))`
(`tools/deploy.py` line 149): the string written to standard output. -/
def printed_json (d : PyDict) (pretty : Bool) : String :=
  jsonDumps d (if pretty then some 2 else none)

/-- Formulated from the spec's words for the refinement comparison: a JSON
object "indented with 2-space width" — each member on its own line behind two
spaces, members separated by a comma at end of line, braces on their own
lines. -/
def spec_pretty_json (d : PyDict) : String :=
  if d = [] then ⟨['{', '}']⟩
  else
    ⟨'{' :: '\n' ::
      (joinSep [',', '\n'] (d.map (fun p => ' ' :: ' ' :: renderEntry p)) ++
        '\n' :: ['}'])⟩

/-- Hex digit characters are never a newline. -/
theorem hexDigitCore_ne_newline : ∀ m, m < 16 → hexDigitCore m ≠ '\n' := by decide

/-- Hex digit of any number is never a newline. -/
theorem hexDigit_ne_newline (n : Nat) : hexDigit n ≠ '\n' :=
  hexDigitCore_ne_newline (n % 16) (Nat.mod_lt n (by omega))

/-- A `\uXXXX` escape contains no newline. -/
theorem newline_not_mem_uEsc (k : Nat) : ¬ '\n' ∈ uEsc k := by
  intro h
  simp only [uEsc, List.mem_cons, List.not_mem_nil, or_false] at h
  rcases h with h | h | h | h | h | h
  · exact absurd h (by decide)
  · exact absurd h (by decide)
  · exact hexDigit_ne_newline (k / 4096) h.symm
  · exact hexDigit_ne_newline (k / 256) h.symm
  · exact hexDigit_ne_newline (k / 16) h.symm
  · exact hexDigit_ne_newline k h.symm

/-- The escape of any character contains no newline character. -/
theorem newline_not_mem_escChar (c : Char) : ¬ '\n' ∈ escChar c := by
  by_cases h1 : c = '"'
  · subst h1; decide
  by_cases h2 : c = '\\'
  · subst h2; decide
  by_cases h3 : c = '\n'
  · subst h3; decide
  by_cases h4 : c = '\r'
  · subst h4; decide
  by_cases h5 : c = '\t'
  · subst h5; decide
  by_cases h6 : c = '\x08'
  · subst h6; decide
  by_cases h7 : c = '\x0c'
  · subst h7; decide
  by_cases h8 : c.toNat < 32
  · simp only [escChar, if_neg h1, if_neg h2, if_neg h3, if_neg h4, if_neg h5, if_neg h6,
      if_neg h7, if_pos h8]
    exact newline_not_mem_uEsc c.toNat
  by_cases h9 : c.toNat < 128
  · simp only [escChar, if_neg h1, if_neg h2, if_neg h3, if_neg h4, if_neg h5, if_neg h6,
      if_neg h7, if_neg h8, if_pos h9]
    intro h
    exact h3 (List.mem_singleton.mp h).symm
  by_cases h10 : c.toNat < 65536
  · simp only [escChar, if_neg h1, if_neg h2, if_neg h3, if_neg h4, if_neg h5, if_neg h6,
      if_neg h7, if_neg h8, if_neg h9, if_pos h10]
    exact newline_not_mem_uEsc c.toNat
  · simp only [escChar, if_neg h1, if_neg h2, if_neg h3, if_neg h4, if_neg h5, if_neg h6,
      if_neg h7, if_neg h8, if_neg h9, if_neg h10]
    intro h
    rcases List.mem_append.mp h with h | h
    · exact newline_not_mem_uEsc _ h
    · exact newline_not_mem_uEsc _ h

/-- An escaped string contains no newline character. -/
theorem newline_not_mem_escString (cs : List Char) : ¬ '\n' ∈ escString cs := by
  induction cs with
  | nil => simp [escString]
  | cons c t ih =>
    intro h
    rcases List.mem_append.mp h with h | h
    · exact newline_not_mem_escChar c h
    · exact ih h

/-- A JSON string literal contains no newline character. -/
theorem newline_not_mem_jsonQuote (cs : List Char) : ¬ '\n' ∈ jsonQuote cs := by
  intro h
  rcases List.mem_cons.mp h with h | h
  · exact absurd h (by decide)
  · rcases List.mem_append.mp h with h | h
    · exact newline_not_mem_escString cs h
    · exact absurd (List.mem_singleton.mp h) (by decide)

/-- A rendered object member contains no newline character. -/
theorem newline_not_mem_renderEntry (p : String × String) : ¬ '\n' ∈ renderEntry p := by
  intro h
  rcases List.mem_append.mp h with h | h
  · exact newline_not_mem_jsonQuote _ h
  · rcases List.mem_cons.mp h with h | h
    · exact absurd h (by decide)
    · rcases List.mem_cons.mp h with h | h
      · exact absurd h (by decide)
      · exact newline_not_mem_jsonQuote _ h

/-- Joining newline-free pieces with a newline-free separator stays
newline-free. -/
theorem newline_not_mem_joinSep (sep : List Char) (L : List (List Char))
    (hs : ¬ '\n' ∈ sep) (hL : ∀ x ∈ L, ¬ '\n' ∈ x) : ¬ '\n' ∈ joinSep sep L := by
  induction L with
  | nil => simp [joinSep]
  | cons x t ih =>
    cases t with
    | nil => simpa [joinSep] using hL x (List.mem_cons_self x [])
    | cons y t2 =>
      intro h
      simp only [joinSep] at h
      rcases List.mem_append.mp h with h | h
      · rcases List.mem_append.mp h with h | h
        · exact hL x (List.mem_cons_self x (y :: t2)) h
        · exact hs h
      · exact ih (fun z hz => hL z (List.mem_cons_of_mem x hz)) h

/-- Prepending a pad to every piece is joining with the padded separator. -/
theorem joinSep_shift (pad sep : List Char) (L : List (List Char)) (h : L ≠ []) :
    pad ++ joinSep (sep ++ pad) L = joinSep sep (L.map (fun x => pad ++ x)) := by
  induction L with
  | nil => exact absurd rfl h
  | cons x t ih =>
    cases t with
    | nil => simp [joinSep]
    | cons y t2 =>
      simp only [joinSep, List.map_cons]
      have ih2 := ih (by simp)
      rw [List.map_cons] at ih2
      rw [← ih2]
      simp [List.append_assoc]

/-- C7: with `--pretty` the printed JSON uses 2-space indentation (it equals
the spec's 2-space-indented rendering); without it the output is compact and
contains no embedded newline. -/
theorem printed_json_indent_behaviour (d : PyDict) (pretty : Bool) :
    (pretty = false → ¬ '\n' ∈ (printed_json d pretty).data)
    ∧ (pretty = true → printed_json d pretty = spec_pretty_json d) := by
  constructor
  · rintro rfl
    show ¬ '\n' ∈ ('{' :: (joinSep [',', ' '] (d.map renderEntry) ++ ['}']))
    intro h
    simp only [List.mem_cons] at h
    rcases h with h | h
    · exact absurd h (by decide)
    · rcases List.mem_append.mp h with h | h
      · refine newline_not_mem_joinSep [',', ' '] (d.map renderEntry) (by decide) ?_ h
        intro x hx
        obtain ⟨p, _, rfl⟩ := List.mem_map.mp hx
        exact newline_not_mem_renderEntry p
      · simp only [List.mem_singleton] at h
        exact absurd h (by decide)
  · rintro rfl
    by_cases hd : d = []
    · subst hd
      rfl
    · show jsonDumps d (some 2) = spec_pretty_json d
      simp only [jsonDumps, spec_pretty_json, if_neg hd]
      have hmap : d.map (fun p => ' ' :: ' ' :: renderEntry p)
          = (d.map renderEntry).map (fun x => [' ', ' '] ++ x) := by
        simp [List.map_map, Function.comp]
      have hne : d.map renderEntry ≠ [] := by
        simpa using hd
      congr 1
      rw [hmap, ← joinSep_shift [' ', ' '] [',', '\n'] (d.map renderEntry) hne]
      simp [List.append_assoc]

/-- Dict used in the witnesses for the printing claims. -/
def demoDict : PyDict :=
  [("Registry.sol:Registry", "0xAb5801a7D398351b8bE11C439e05C5b3259aec9B"),
   ("EndpointRegistry.sol:EndpointRegistry", "0x5aAeb6053F3e94c9b9A09F33669435E7EF1BEAed")]

/-- Witness applying `printed_json_indent_behaviour` at a concrete dict,
discharging the hypothesis of each half. -/
theorem printed_json_indent_behaviour_witness :
    (¬ '\n' ∈ (printed_json demoDict false).data)
    ∧ printed_json demoDict true = spec_pretty_json demoDict :=
  ⟨(printed_json_indent_behaviour demoDict false).1 rfl,
   (printed_json_indent_behaviour demoDict true).2 rfl⟩

/-- The contract reference of the Registry contract. -/
def registryKey : String := "Registry.sol:Registry"

/-- The contract reference of the EndpointRegistry contract. -/
def endpointKey : String := "EndpointRegistry.sol:EndpointRegistry"

/-- Model of `main` lines 142-147: replace the value at the EndpointRegistry
key, then at the Registry key, by its checksum encoding, in that order as the
source does; a missing key raises `KeyError`, modelled by `none`. -/
def main_format_deployed (keccak : List Char → List Nat) (deployed : PyDict) :
    Option PyDict :=
  match dictGet deployed endpointKey with
  | none => none
  | some a =>
    let d1 := dictSet deployed endpointKey (to_checksum_address keccak a)
    match dictGet d1 registryKey with
    | none => none
    | some b => some (dictSet d1 registryKey (to_checksum_address keccak b))

/-- Model of `main` lines 140-149 after `deploy_all` returned: checksum the
two top-level entries, then print the JSON rendering; `none` models a raised
`KeyError`, in which case nothing is printed. -/
def main_output (keccak : List Char → List Nat) (pretty : Bool) (deployed : PyDict) :
    Option String :=
  (main_format_deployed keccak deployed).map (fun d => printed_json d pretty)

/-- When both top-level keys are present, the formatting step succeeds and
rewrites exactly their two values. -/
theorem main_format_eq (keccak : List Char → List Nat) (d : PyDict) (vE vR : String)
    (hE : dictGet d endpointKey = some vE) (hR : dictGet d registryKey = some vR) :
    main_format_deployed keccak d
      = some (dictSet (dictSet d endpointKey (to_checksum_address keccak vE)) registryKey
          (to_checksum_address keccak vR)) := by
  have hne : registryKey ≠ endpointKey := by decide
  simp only [main_format_deployed, hE]
  rw [dictGet_dictSet_ne d endpointKey (to_checksum_address keccak vE) registryKey hne]
  simp only [hR]

/-- Lookup after two sets at distinct keys. -/
theorem dictGet_set_set (d : PyDict) (a b : String) (x y : String) (hab : b ≠ a)
    (k : String) :
    dictGet (dictSet (dictSet d a x) b y) k
      = if k = b then some y else if k = a then some x else dictGet d k := by
  by_cases hk1 : k = b
  · subst hk1
    simp [dictGet_dictSet_self]
  · rw [dictGet_dictSet_ne _ b y k hk1]
    by_cases hk2 : k = a
    · subst hk2
      simp [dictGet_dictSet_self, hk1]
    · rw [dictGet_dictSet_ne _ a x k hk2]
      simp [hk1, hk2]

/-- C10: after `deploy_all` returns, `main` transforms only the values at the
two fixed keys `Registry.sol:Registry` and
`EndpointRegistry.sol:EndpointRegistry` of the deployed map, leaving every
other entry unchanged in the printed output; if either of the two keys is
absent, `main` fails with a `KeyError` and prints nothing. -/
theorem main_transforms_only_two_keys (keccak : List Char → List Nat) (d : PyDict) :
    (dictGet d endpointKey = none → ∀ pretty, main_output keccak pretty d = none)
    ∧ (dictGet d registryKey = none → ∀ pretty, main_output keccak pretty d = none)
    ∧ (∀ vE vR, dictGet d endpointKey = some vE → dictGet d registryKey = some vR →
        ∃ out, main_format_deployed keccak d = some out
          ∧ dictGet out endpointKey = some (to_checksum_address keccak vE)
          ∧ dictGet out registryKey = some (to_checksum_address keccak vR)
          ∧ (∀ k, k ≠ endpointKey → k ≠ registryKey → dictGet out k = dictGet d k)
          ∧ (∀ pretty, main_output keccak pretty d = some (printed_json out pretty))) := by
  have hne : registryKey ≠ endpointKey := by decide
  refine ⟨?_, ?_, ?_⟩
  · intro hE pretty
    simp [main_output, main_format_deployed, hE]
  · intro hR pretty
    cases hE : dictGet d endpointKey with
    | none => simp [main_output, main_format_deployed, hE]
    | some vE =>
      simp only [main_output, main_format_deployed, hE]
      rw [dictGet_dictSet_ne d endpointKey (to_checksum_address keccak vE) registryKey hne]
      simp [hR]
  · intro vE vR hE hR
    refine ⟨_, main_format_eq keccak d vE vR hE hR, ?_, ?_, ?_, ?_⟩
    · rw [dictGet_set_set d endpointKey registryKey _ _ hne endpointKey,
        if_neg (by decide), if_pos rfl]
    · rw [dictGet_set_set d endpointKey registryKey _ _ hne registryKey, if_pos rfl]
    · intro k hkE hkR
      rw [dictGet_set_set d endpointKey registryKey _ _ hne k, if_neg hkR, if_neg hkE]
    · intro pretty
      simp only [main_output, main_format_eq keccak d vE vR hE hR]
      rfl

/-- Witness applying `main_transforms_only_two_keys` at a concrete deployed
map, discharging both key-presence hypotheses. -/
theorem main_transforms_only_two_keys_witness :
    ∃ out, main_format_deployed demoKeccak demoDict = some out
      ∧ dictGet out endpointKey
        = some (to_checksum_address demoKeccak "0x5aAeb6053F3e94c9b9A09F33669435E7EF1BEAed")
      ∧ dictGet out registryKey
        = some (to_checksum_address demoKeccak "0xAb5801a7D398351b8bE11C439e05C5b3259aec9B")
      ∧ (∀ k, k ≠ endpointKey → k ≠ registryKey → dictGet out k = dictGet demoDict k)
      ∧ (∀ pretty, main_output demoKeccak pretty demoDict
          = some (printed_json out pretty)) :=
  (main_transforms_only_two_keys demoKeccak demoDict).2.2
    "0x5aAeb6053F3e94c9b9A09F33669435E7EF1BEAed"
    "0xAb5801a7D398351b8bE11C439e05C5b3259aec9B" (by decide) (by decide)

/-- The map `deploy_file` returns always holds the deployed address under the
input contract reference. -/
theorem isSome_dictGet_deploy_file {σ κ : Type} (client : Client σ κ) (c : String)
    (cc : κ) (s : σ) : (dictGet (deploy_file client c cc s).2 c).isSome = true := by
  simp [deploy_file, dictGet_dictSet_self]

/-- C5 as amended: for every client behaviour the result of `deploy_all`
always carries both top-level contract references, the formatting step of
`main` succeeds and applies checksum conversion exactly at those two keys —
their printed values are the checksum encodings of the raw deployed
addresses — while every other entry of the deployed map (such as library
addresses the patched client recorded in the shared dict) is printed with its
value unchanged, not necessarily checksum-formatted. -/
theorem main_output_checksums_two_top_level
    (keccak : List Char → List Nat) (σ κ : Type) (env : DeployEnv σ κ) (s0 : σ) :
    ∃ vR vE out,
      dictGet (deploy_all env s0).2 registryKey = some vR
      ∧ dictGet (deploy_all env s0).2 endpointKey = some vE
      ∧ main_format_deployed keccak (deploy_all env s0).2 = some out
      ∧ ∀ k, dictGet out k =
          if k = registryKey then some (to_checksum_address keccak vR)
          else if k = endpointKey then some (to_checksum_address keccak vE)
          else dictGet (deploy_all env s0).2 k := by
  have hne : registryKey ≠ endpointKey := by decide
  have hRpres : (dictGet (deploy_all env s0).2 registryKey).isSome = true := by
    simp only [deploy_all, CONTRACTS_TO_DEPLOY, List.foldl_cons, List.foldl_nil]
    exact isSome_dictGet_dictUpdate_left _ _ _
      (isSome_dictGet_dictUpdate_right _ _ _ (isSome_dictGet_deploy_file _ _ _ _))
  have hEpres : (dictGet (deploy_all env s0).2 endpointKey).isSome = true := by
    simp only [deploy_all, CONTRACTS_TO_DEPLOY, List.foldl_cons, List.foldl_nil]
    exact isSome_dictGet_dictUpdate_right _ _ _ (isSome_dictGet_deploy_file _ _ _ _)
  obtain ⟨vR, hvR⟩ := Option.isSome_iff_exists.mp hRpres
  obtain ⟨vE, hvE⟩ := Option.isSome_iff_exists.mp hEpres
  refine ⟨vR, vE, _, hvR, hvE, main_format_eq keccak _ vE vR hvE hvR, ?_⟩
  intro k
  rw [dictGet_set_set _ endpointKey registryKey _ _ hne k]

/-- Keccak stand-in that forces every letter uppercase: every nibble is 15. -/
def allCapsKeccak : List Char → List Nat := fun _ => List.replicate 64 15

/-- Client behaviour that records a library address (all lowercase hex) in the
shared `libraries` dict, as the patched upstream method does for deployed
dependencies. -/
def depLeakingClient : Client Unit Unit where
  deploy_solidity_contract := fun _ _ _ libs _ _ =>
    ((), ⟨"0x5555555555555555555555555555555555555555"⟩,
     dictSet libs "NettingChannelLibrary.sol:NettingChannelLibrary"
       "0xabcdefabcdefabcdefabcdefabcdefabcdefabcd")

/-- Deployment environment for the C5 counterexample. -/
def leakEnv : DeployEnv Unit Unit := ⟨id, fun _ => (), depLeakingClient⟩

/-- C5 is false as stated: with the client behaviour `depLeakingClient` the
result of `deploy_all` contains the dependency reference
`NettingChannelLibrary.sol:NettingChannelLibrary`, and the object `main`
prints maps it to its raw value, which is not checksum-formatted (checksum
conversion changes it); only the two top-level keys get converted. -/
theorem printed_value_not_checksum_counterexample :
    (main_format_deployed allCapsKeccak (deploy_all leakEnv ()).2).map
        (fun out => dictGet out "NettingChannelLibrary.sol:NettingChannelLibrary")
      = some (some "0xabcdefabcdefabcdefabcdefabcdefabcdefabcd")
    ∧ to_checksum_address allCapsKeccak "0xabcdefabcdefabcdefabcdefabcdefabcdefabcd"
      ≠ "0xabcdefabcdefabcdefabcdefabcdefabcdefabcd" := by
  constructor
  · rfl
  · decide
